import Mathlib

/-!
Verification development for the siichisei web app's call/soundboard core.

The soundboard audio hook (`useSoundboardAudio` in
`src/hooks/useSoundboardAudio.js`) mixes a local microphone with a loaded
background track via a Web Audio graph.  We embed its observable state
(React state + refs + the audio graph's connection list and the gain-param
automation commands issued) and its operations as pure state transformers.
External outcomes (microphone permission, audio decoding) are passed in as
parameters.

The presence flattening (`GroupMessageArea.jsx`) and the durable
call-active flag update (`classroomService.updateCallStatus`) are embedded
over explicit list representations of the provider's presence state and
the conversations table.
-/

namespace Siichisei

/-- A decoded audio buffer (`decodeAudioData` result): sample data plus the
`duration` field that the hook reads. -/
structure AudioBuffer where
  pcm : List Int
  duration : ℚ
deriving DecidableEq

/-- The nodes of the Web Audio graph built by `initAudioContext`.
`bufferSource n` is the n-th `createBufferSource` node made by `playAudio`. -/
inductive NodeId where
  | mediaStreamDest
  | contextDest
  | micSourceNode
  | micGainNode
  | bgmGainNode
  | loopbackGainNode
  | bufferSource (n : Nat)
deriving DecidableEq

/-- An automation command applied to a gain node's `gain` AudioParam:
either a direct `value` assignment or `setTargetAtTime(target, start, tc)`
(an exponential ramp toward `target` with time constant `tc`). -/
inductive GainCommand where
  | setValue (v : ℚ)
  | setTargetAtTime (target : ℚ) (startTime : ℚ) (timeConstant : ℚ)
deriving DecidableEq

/-- Observable state of the `useSoundboardAudio` hook.

* `ctxCreated` — `audioContextRef.current !== null` (the context and the
  gain/destination nodes are created together, before the mic request);
* `micAcquired` — `micSourceRef.current !== null` (getUserMedia succeeded);
* `edges` — the multiset of `connect` calls currently in effect;
* `micGainCmds`/`bgmGainCmds`/`loopbackGainCmds` — the automation commands
  issued so far on each gain param;
* the remaining fields mirror the hook's `useState`/`useRef` cells. -/
structure SoundboardState where
  ctxCreated : Bool
  micAcquired : Bool
  isReady : Bool
  isPlaying : Bool
  duration : ℚ
  currentTime : ℚ
  error : Option String
  voiceVolume : ℚ
  bgmVolume : ℚ
  hearMyVoice : Bool
  audioBuffer : Option AudioBuffer
  bgmSource : Option Nat
  nextSourceId : Nat
  startTime : ℚ
  pausedAt : ℚ
  edges : List (NodeId × NodeId)
  micGainCmds : List GainCommand
  bgmGainCmds : List GainCommand
  loopbackGainCmds : List GainCommand
deriving DecidableEq

/-- The hook's initial state: volumes default to 0.5, nothing created. -/
def initialState : SoundboardState :=
  { ctxCreated := false
    micAcquired := false
    isReady := false
    isPlaying := false
    duration := 0
    currentTime := 0
    error := none
    voiceVolume := 1/2
    bgmVolume := 1/2
    hearMyVoice := false
    audioBuffer := none
    bgmSource := none
    nextSourceId := 0
    startTime := 0
    pausedAt := 0
    edges := []
    micGainCmds := []
    bgmGainCmds := []
    loopbackGainCmds := [] }

/-- `initAudioContext`.  Returns early if the context already exists.
Otherwise it creates the context and the destination/gain nodes (setting
each gain's initial value), then requests the microphone (`micOk` is the
outcome of `getUserMedia`); on success it wires the whole graph
(mic → micGain → dest, micGain → loopback → speakers, and
bgmGain → dest, bgmGain → speakers) and sets `isReady`; on failure it only
sets the error message (the context stays created, unwired). -/
def initAudioContext (micOk : Bool) (s : SoundboardState) : SoundboardState :=
  if s.ctxCreated then s
  else
    let s1 : SoundboardState :=
      { s with
        ctxCreated := true
        micGainCmds := [GainCommand.setValue s.voiceVolume]
        bgmGainCmds := [GainCommand.setValue s.bgmVolume]
        loopbackGainCmds := [GainCommand.setValue 0] }
    if micOk then
      { s1 with
        micAcquired := true
        edges := s1.edges ++
          [(NodeId.micSourceNode, NodeId.micGainNode),
           (NodeId.micGainNode, NodeId.mediaStreamDest),
           (NodeId.micGainNode, NodeId.loopbackGainNode),
           (NodeId.loopbackGainNode, NodeId.contextDest),
           (NodeId.bgmGainNode, NodeId.mediaStreamDest),
           (NodeId.bgmGainNode, NodeId.contextDest)]
        isReady := true }
    else
      { s1 with error := some "Failed to access microphone or audio system." }

/-- Result of a `playAudio` call: the guard branch (`!audioContextRef.current
|| !audioBufferRef.current`) returns without starting anything
(`notReady`); otherwise a fresh buffer source `sourceId` is started at
`offset` seconds into the buffer. -/
inductive PlayResult where
  | notReady
  | started (sourceId : Nat) (offset : ℚ)
deriving DecidableEq

/-- `playAudio` at audio-context time `ctxTime`.  With no context or no
loaded buffer it returns unchanged.  Otherwise it stops any previous
source, creates a fresh buffer source, connects it to the (persistent)
BGM gain node — the only `connect` performed here — starts it at offset
`pausedAt`, records `startTime = ctxTime - pausedAt`, and sets
`isPlaying`. -/
def playAudio (ctxTime : ℚ) (s : SoundboardState) :
    SoundboardState × PlayResult :=
  if s.ctxCreated = false ∨ s.audioBuffer = none then (s, PlayResult.notReady)
  else
    let sid := s.nextSourceId
    ({ s with
        edges := s.edges ++ [(NodeId.bufferSource sid, NodeId.bgmGainNode)]
        startTime := ctxTime - s.pausedAt
        bgmSource := some sid
        nextSourceId := sid + 1
        isPlaying := true },
     PlayResult.started sid s.pausedAt)

/-- `stopAudio`: stops and clears the current source, cancels the progress
loop, clears `isPlaying`, and rewinds (`pausedAt = 0`, `currentTime = 0`). -/
def stopAudio (s : SoundboardState) : SoundboardState :=
  { s with
    bgmSource := none
    isPlaying := false
    pausedAt := 0
    currentTime := 0 }

/-- One tick of the `updateProgress` animation-frame loop at context time
`ctxTime`: computes the elapsed position; at or past end-of-buffer it
auto-stops and resets the position to 0, otherwise it publishes the
position. -/
def updateProgress (ctxTime : ℚ) (s : SoundboardState) : SoundboardState :=
  match s.audioBuffer with
  | none => s
  | some buf =>
    let current := ctxTime - s.startTime
    if buf.duration ≤ current then
      let s2 := stopAudio s
      { s2 with currentTime := 0, pausedAt := 0 }
    else
      { s with currentTime := current }

/-- `loadAudioFile`.  If the context does not exist yet it first runs
`initAudioContext` (lazy initialization — `micOk` is that attempt's
getUserMedia outcome).  `decoded` is the outcome of
`file.arrayBuffer()`/`decodeAudioData`: on success the decoded buffer
replaces the previous one, `duration` is published, playback (if any) is
stopped, and the error indicator is cleared; on failure only the error
message is set. -/
def loadAudioFile (micOk : Bool) (decoded : Option AudioBuffer)
    (s : SoundboardState) : SoundboardState :=
  let s0 := if s.ctxCreated then s else initAudioContext micOk s
  if s0.ctxCreated = false then s0
  else
    match decoded with
    | some buf =>
      let s1 : SoundboardState :=
        { s0 with audioBuffer := some buf, duration := buf.duration }
      let s2 := if s1.isPlaying then stopAudio s1 else s1
      { s2 with error := none }
    | none =>
      { s0 with error := some "Failed to load or decode audio file." }

/-- `setVoiceVolume v` plus the effect on `[voiceVolume]`: React bails out
when the value is unchanged; otherwise the state updates and, when the mic
gain node exists, `gain.setTargetAtTime(v, ctx.currentTime, 0.1)` is
issued (a smooth ramp, time constant 0.1 s). -/
def setVoiceVolume (ctxTime v : ℚ) (s : SoundboardState) : SoundboardState :=
  if v = s.voiceVolume then s
  else
    let s1 : SoundboardState := { s with voiceVolume := v }
    if s1.ctxCreated then
      { s1 with micGainCmds :=
          s1.micGainCmds ++ [GainCommand.setTargetAtTime v ctxTime (1/10)] }
    else s1

/-- `setBgmVolume v` plus the effect on `[bgmVolume]`: same shape as
`setVoiceVolume`, targeting the BGM gain node. -/
def setBgmVolume (ctxTime v : ℚ) (s : SoundboardState) : SoundboardState :=
  if v = s.bgmVolume then s
  else
    let s1 : SoundboardState := { s with bgmVolume := v }
    if s1.ctxCreated then
      { s1 with bgmGainCmds :=
          s1.bgmGainCmds ++ [GainCommand.setTargetAtTime v ctxTime (1/10)] }
    else s1

/-- `toggleHearMyVoice b` plus the effect on `[hearMyVoice]`: ramps the
loopback gain to 1.0 or 0.0 with time constant 0.1 s. -/
def setHearMyVoice (ctxTime : ℚ) (b : Bool) (s : SoundboardState) :
    SoundboardState :=
  if b = s.hearMyVoice then s
  else
    let s1 : SoundboardState := { s with hearMyVoice := b }
    if s1.ctxCreated then
      { s1 with loopbackGainCmds :=
          s1.loopbackGainCmds ++
            [GainCommand.setTargetAtTime (if b then 1 else 0) ctxTime (1/10)] }
    else s1

/-- Modelled from the spec: the clamp the spec claims `setMicGain` /
`setBgmGain` apply to their argument — the nearest point of [0, 1.5]. -/
def specClampGain (v : ℚ) : ℚ := max 0 (min v (3/2))

/-- One user-level operation on the soundboard (everything except
`initAudioContext`, which claim C1 performs explicitly first). -/
inductive SoundOp where
  | play (ctxTime : ℚ)
  | stop
  | tick (ctxTime : ℚ)
  | load (micOk : Bool) (decoded : Option AudioBuffer)
  | setVoice (ctxTime v : ℚ)
  | setBgm (ctxTime v : ℚ)
  | setMonitor (ctxTime : ℚ) (b : Bool)
deriving DecidableEq

/-- Interpret one operation. -/
def applySoundOp (s : SoundboardState) : SoundOp → SoundboardState
  | SoundOp.play t => (playAudio t s).1
  | SoundOp.stop => stopAudio s
  | SoundOp.tick t => updateProgress t s
  | SoundOp.load micOk dec => loadAudioFile micOk dec s
  | SoundOp.setVoice t v => setVoiceVolume t v s
  | SoundOp.setBgm t v => setBgmVolume t v s
  | SoundOp.setMonitor t b => setHearMyVoice t b s

/-- Interpret a sequence of operations left to right. -/
def runSound (s : SoundboardState) (ops : List SoundOp) : SoundboardState :=
  ops.foldl applySoundOp s

/-- Number of occurrences of the connection `e` in the edge multiset `l`. -/
def countPair (e : NodeId × NodeId) : List (NodeId × NodeId) → Nat
  | [] => 0
  | x :: xs => (if x = e then 1 else 0) + countPair e xs

/-- One record tracked on the call-presence channel (the `userInfo`
payload: a nickname, avatar url, user id).  `nickname` is `none` when the
field is absent/null. -/
structure PresenceRecord where
  user_id : String
  nickname : Option String
  avatar_url : Option String
deriving DecidableEq

/-- JS truthiness test `presence.nickname` used by the flattening loop:
true iff the nickname is present and non-empty. -/
def truthyNickname (r : PresenceRecord) : Bool :=
  match r.nickname with
  | some s => s ≠ ""
  | none => false

/-- The presence sync handler in `GroupMessageArea`: for each key of the
provider's `presenceState()` (a per-key multi-value map, here a list of
key/values pairs), push every record whose `nickname` is truthy. -/
def flattenPresence (state : List (String × List PresenceRecord)) :
    List PresenceRecord :=
  (state.map (fun kv => kv.2.filter truthyNickname)).flatten

/-- Modelled from the spec: a presence record is well-formed (not
"malformed/empty") iff it carries a usable display nickname. -/
def wellFormedRecord (r : PresenceRecord) : Bool := truthyNickname r

/-- One row of the `conversations` table: its `id`, the
`is_call_active` flag, and every other column, kept abstractly as a
name/value list. -/
structure Conversation where
  id : String
  is_call_active : Bool
  otherColumns : List (String × String)
deriving DecidableEq

/-- The database effect of `updateCallStatus(chatId, isActive)`:
`update({ is_call_active: isActive }).eq('id', chatId)` — every row whose
`id` equals `chatId` gets only its `is_call_active` column set; every
other row is untouched. -/
def applyUpdateCallStatus (chatId : String) (isActive : Bool)
    (db : List Conversation) : List Conversation :=
  db.map (fun c =>
    if c.id = chatId then { c with is_call_active := isActive } else c)

/-! Concrete states used to instantiate the theorems below. -/

/-- A small decoded buffer (2 seconds long). -/
def demoBuf : AudioBuffer := { pcm := [1, -2, 3], duration := 2 }

/-- A second, distinct decoded buffer (3 seconds long). -/
def newBuf : AudioBuffer := { pcm := [5], duration := 3 }

/-- State right after a successful `initAudioContext`. -/
def readyState : SoundboardState := initAudioContext true initialState

/-- State after initializing and loading `demoBuf`. -/
def loadedState : SoundboardState := loadAudioFile true (some demoBuf) readyState

/-- State after additionally starting playback at context time 0. -/
def playingState : SoundboardState := (playAudio 0 loadedState).1

/-- C3: `playAudio` with no loaded buffer returns `notReady` and leaves the
state exactly unchanged — `isPlaying` stays false if it was, the playback
position is untouched, and no buffer source is created or started. -/
theorem playAudio_no_buffer_noop (s : SoundboardState) (t : ℚ)
    (h : s.audioBuffer = none) :
    playAudio t s = (s, PlayResult.notReady) := by
  simp [playAudio, h]

theorem playAudio_no_buffer_noop_witness :
    playAudio 0 initialState = (initialState, PlayResult.notReady) :=
  playAudio_no_buffer_noop initialState 0 rfl

/-- C7: `initAudioContext` is idempotent — when the audio context already
exists, a second call returns the state exactly unchanged, for either
outcome of the (not re-issued) microphone request. -/
theorem initAudioContext_idempotent (micOk : Bool) (s : SoundboardState)
    (h : s.ctxCreated = true) :
    initAudioContext micOk s = s := by
  simp [initAudioContext, h]

theorem initAudioContext_idempotent_witness :
    initAudioContext false readyState = readyState :=
  initAudioContext_idempotent false readyState rfl

/-- C10: `loadAudioFile` is atomic on decode failure — with the context
initialized, a failed decode changes nothing but the error indicator: the
previously loaded buffer, the reported duration, the playback flags and
position are all exactly as before. -/
theorem loadAudioFile_decode_failure_atomic (micOk : Bool)
    (s : SoundboardState) (h : s.ctxCreated = true) :
    loadAudioFile micOk none s =
      { s with error := some "Failed to load or decode audio file." } := by
  simp [loadAudioFile, h]

theorem loadAudioFile_decode_failure_atomic_witness :
    loadAudioFile true none loadedState =
      { loadedState with
          error := some "Failed to load or decode audio file." } :=
  loadAudioFile_decode_failure_atomic true loadedState rfl

/-- C4 (counterexample): loading a new track while a previous track is
playing does NOT leave the previous playback running — the hook stops it
(`if (isPlaying) stopAudio()`): from a playing state, a successful load
ends with `isPlaying = false` and the active source cleared. -/
theorem loadAudioFile_stops_playback_counterexample :
    playingState.isPlaying = true ∧
    (loadAudioFile true (some newBuf) playingState).isPlaying = false ∧
    (loadAudioFile true (some newBuf) playingState).bgmSource = none := by
  refine ⟨rfl, rfl, rfl⟩

/-- C4 (amended): a successful `loadAudioFile` replaces the previous
buffer, publishes the new duration, clears the error, and stops any
in-progress playback (resetting the position to 0) rather than letting it
continue; when nothing was playing the position cells are untouched; a
failed decode only sets the error message. -/
theorem loadAudioFile_spec (micOk : Bool) (s : SoundboardState)
    (buf : AudioBuffer) (h : s.ctxCreated = true) :
    (loadAudioFile micOk (some buf) s).audioBuffer = some buf ∧
    (loadAudioFile micOk (some buf) s).duration = buf.duration ∧
    (loadAudioFile micOk (some buf) s).error = none ∧
    (loadAudioFile micOk (some buf) s).isPlaying = false ∧
    (s.isPlaying = true →
      (loadAudioFile micOk (some buf) s).pausedAt = 0 ∧
      (loadAudioFile micOk (some buf) s).currentTime = 0) ∧
    (s.isPlaying = false →
      (loadAudioFile micOk (some buf) s).pausedAt = s.pausedAt ∧
      (loadAudioFile micOk (some buf) s).currentTime = s.currentTime) ∧
    loadAudioFile micOk none s =
      { s with error := some "Failed to load or decode audio file." } := by
  cases hp : s.isPlaying <;>
    simp [loadAudioFile, stopAudio, h, hp]

theorem loadAudioFile_spec_witness :
    (loadAudioFile true (some newBuf) playingState).audioBuffer =
      some newBuf ∧
    (loadAudioFile true (some newBuf) playingState).duration =
      newBuf.duration ∧
    (loadAudioFile true (some newBuf) playingState).error = none ∧
    (loadAudioFile true (some newBuf) playingState).isPlaying = false ∧
    (playingState.isPlaying = true →
      (loadAudioFile true (some newBuf) playingState).pausedAt = 0 ∧
      (loadAudioFile true (some newBuf) playingState).currentTime = 0) ∧
    (playingState.isPlaying = false →
      (loadAudioFile true (some newBuf) playingState).pausedAt =
        playingState.pausedAt ∧
      (loadAudioFile true (some newBuf) playingState).currentTime =
        playingState.currentTime) ∧
    loadAudioFile true none playingState =
      { playingState with
          error := some "Failed to load or decode audio file." } :=
  loadAudioFile_spec true playingState newBuf rfl

/-- C2 (counterexample): the volume setters do not clamp their argument to
[0, 1.5] — calling `setVoiceVolume 2` on an initialized graph issues a
ramp whose target is 2 itself, not the nearest bound 1.5 that the spec's
clamp would give. -/
theorem setVoiceVolume_unclamped_counterexample :
    (setVoiceVolume 5 2 readyState).micGainCmds =
      [GainCommand.setValue (1/2), GainCommand.setTargetAtTime 2 5 (1/10)] ∧
    specClampGain 2 = 3/2 ∧ (2 : ℚ) ≠ 3/2 := by
  refine ⟨?_, ?_, ?_⟩
  · norm_num [setVoiceVolume, readyState, initAudioContext, initialState]
  · norm_num [specClampGain]
  · norm_num

/-- C2 (amended): on an initialized graph, `setVoiceVolume v` /
`setBgmVolume v` with a changed value issue exactly one
`setTargetAtTime(v, now, 0.1)` automation command — a smooth ramp toward
`v` with a 0.1 s time constant, never an instantaneous set — with target
exactly `v`, unclamped (the [0, 1.5] range is enforced only by the UI
slider's min/max attributes). -/
theorem setGain_ramp_spec (s : SoundboardState) (t v : ℚ)
    (h : s.ctxCreated = true) (hv : v ≠ s.voiceVolume)
    (hb : v ≠ s.bgmVolume) :
    (setVoiceVolume t v s).micGainCmds =
      s.micGainCmds ++ [GainCommand.setTargetAtTime v t (1/10)] ∧
    (setVoiceVolume t v s).voiceVolume = v ∧
    (setBgmVolume t v s).bgmGainCmds =
      s.bgmGainCmds ++ [GainCommand.setTargetAtTime v t (1/10)] ∧
    (setBgmVolume t v s).bgmVolume = v := by
  simp [setVoiceVolume, setBgmVolume, h, hv, hb]

theorem setGain_ramp_spec_witness :
    (setVoiceVolume 7 1 readyState).micGainCmds =
      readyState.micGainCmds ++ [GainCommand.setTargetAtTime 1 7 (1/10)] ∧
    (setVoiceVolume 7 1 readyState).voiceVolume = 1 ∧
    (setBgmVolume 7 1 readyState).bgmGainCmds =
      readyState.bgmGainCmds ++ [GainCommand.setTargetAtTime 1 7 (1/10)] ∧
    (setBgmVolume 7 1 readyState).bgmVolume = 1 :=
  setGain_ramp_spec readyState 7 1 rfl
    (by norm_num [readyState, initAudioContext, initialState])
    (by norm_num [readyState, initAudioContext, initialState])

/-- C5 (counterexample): graph construction is not exclusive to
`initAudioContext` — calling `loadAudioFile` on a never-initialized state
lazily creates the audio context and acquires the microphone as a side
effect. -/
theorem loadAudioFile_initializes_counterexample :
    initialState.ctxCreated = false ∧ initialState.micAcquired = false ∧
    (loadAudioFile true (some demoBuf) initialState).ctxCreated = true ∧
    (loadAudioFile true (some demoBuf) initialState).micAcquired = true := by
  refine ⟨rfl, rfl, rfl, rfl⟩

/-- C5 (amended): only `initAudioContext` and `loadAudioFile` construct
the graph: from an uninitialized state, `playAudio`, `stopAudio`,
`updateProgress`, the volume setters and the monitor toggle never create
the context or acquire the microphone, while `loadAudioFile` lazily runs
`initAudioContext` first. -/
theorem only_init_and_load_construct_graph (s : SoundboardState)
    (hc : s.ctxCreated = false) (hm : s.micAcquired = false) :
    (∀ t : ℚ, (playAudio t s).1.ctxCreated = false ∧
      (playAudio t s).1.micAcquired = false) ∧
    ((stopAudio s).ctxCreated = false ∧ (stopAudio s).micAcquired = false) ∧
    (∀ t : ℚ, (updateProgress t s).ctxCreated = false ∧
      (updateProgress t s).micAcquired = false) ∧
    (∀ t v : ℚ, (setVoiceVolume t v s).ctxCreated = false ∧
      (setVoiceVolume t v s).micAcquired = false) ∧
    (∀ t v : ℚ, (setBgmVolume t v s).ctxCreated = false ∧
      (setBgmVolume t v s).micAcquired = false) ∧
    (∀ (t : ℚ) (b : Bool), (setHearMyVoice t b s).ctxCreated = false ∧
      (setHearMyVoice t b s).micAcquired = false) ∧
    (∀ dec : Option AudioBuffer,
      (loadAudioFile true dec s).ctxCreated = true ∧
      (loadAudioFile true dec s).micAcquired = true) := by
  refine ⟨fun t => ?_, ?_, fun t => ?_, fun t v => ?_, fun t v => ?_,
    fun t b => ?_, fun dec => ?_⟩
  · simp [playAudio, hc, hm]
  · simp [stopAudio, hc, hm]
  · cases hbuf : s.audioBuffer with
    | none => simp [updateProgress, hbuf, hc, hm]
    | some buf =>
        simp only [updateProgress, hbuf]
        split_ifs <;> simp [stopAudio, hc, hm]
  · unfold setVoiceVolume
    split_ifs <;> simp [hc, hm]
  · unfold setBgmVolume
    split_ifs <;> simp [hc, hm]
  · unfold setHearMyVoice
    split_ifs <;> simp [hc, hm]
  · cases dec with
    | none => simp [loadAudioFile, initAudioContext, hc]
    | some buf =>
        by_cases hp : s.isPlaying = true <;>
          simp [loadAudioFile, initAudioContext, stopAudio, hc, hp]

theorem only_init_and_load_construct_graph_witness :
    (∀ t : ℚ, (playAudio t initialState).1.ctxCreated = false ∧
      (playAudio t initialState).1.micAcquired = false) ∧
    ((stopAudio initialState).ctxCreated = false ∧
      (stopAudio initialState).micAcquired = false) ∧
    (∀ t : ℚ, (updateProgress t initialState).ctxCreated = false ∧
      (updateProgress t initialState).micAcquired = false) ∧
    (∀ t v : ℚ, (setVoiceVolume t v initialState).ctxCreated = false ∧
      (setVoiceVolume t v initialState).micAcquired = false) ∧
    (∀ t v : ℚ, (setBgmVolume t v initialState).ctxCreated = false ∧
      (setBgmVolume t v initialState).micAcquired = false) ∧
    (∀ (t : ℚ) (b : Bool),
      (setHearMyVoice t b initialState).ctxCreated = false ∧
      (setHearMyVoice t b initialState).micAcquired = false) ∧
    (∀ dec : Option AudioBuffer,
      (loadAudioFile true dec initialState).ctxCreated = true ∧
      (loadAudioFile true dec initialState).micAcquired = true) :=
  only_init_and_load_construct_graph initialState rfl rfl

/-- C6: `stopAudio` leaves `isPlaying = false` and the position reset to 0
(`pausedAt` and `currentTime` both 0); an `updateProgress` tick at or past
end-of-buffer does the same; and a subsequent `playAudio` from either
resulting state starts a fresh source at offset 0 — there is no
pause-and-resume from a mid-track position. -/
theorem stop_and_end_reset_position (s : SoundboardState) (t t2 : ℚ)
    (buf : AudioBuffer) (hc : s.ctxCreated = true)
    (hb : s.audioBuffer = some buf)
    (hend : buf.duration ≤ t - s.startTime) :
    ((stopAudio s).isPlaying = false ∧ (stopAudio s).pausedAt = 0 ∧
      (stopAudio s).currentTime = 0) ∧
    ((updateProgress t s).isPlaying = false ∧
      (updateProgress t s).pausedAt = 0 ∧
      (updateProgress t s).currentTime = 0) ∧
    (playAudio t2 (stopAudio s)).2 = PlayResult.started s.nextSourceId 0 ∧
    (playAudio t2 (updateProgress t s)).2 =
      PlayResult.started s.nextSourceId 0 := by
  simp [stopAudio, updateProgress, playAudio, hb, hend, hc]

theorem stop_and_end_reset_position_witness :
    ((stopAudio playingState).isPlaying = false ∧
      (stopAudio playingState).pausedAt = 0 ∧
      (stopAudio playingState).currentTime = 0) ∧
    ((updateProgress 10 playingState).isPlaying = false ∧
      (updateProgress 10 playingState).pausedAt = 0 ∧
      (updateProgress 10 playingState).currentTime = 0) ∧
    (playAudio 20 (stopAudio playingState)).2 =
      PlayResult.started playingState.nextSourceId 0 ∧
    (playAudio 20 (updateProgress 10 playingState)).2 =
      PlayResult.started playingState.nextSourceId 0 :=
  stop_and_end_reset_position playingState 10 20 demoBuf rfl rfl
    (by norm_num [demoBuf, playingState, loadedState, readyState, playAudio,
      loadAudioFile, initAudioContext, initialState, Option.some_ne_none])

/-- Invariant for claim C1: the context exists and the BGM gain node is
connected exactly once to the outbound mixed destination and exactly once
to the local playback output. -/
def WiredOnce (s : SoundboardState) : Prop :=
  s.ctxCreated = true ∧
  countPair (NodeId.bgmGainNode, NodeId.mediaStreamDest) s.edges = 1 ∧
  countPair (NodeId.bgmGainNode, NodeId.contextDest) s.edges = 1

theorem countPair_append (e : NodeId × NodeId)
    (l1 l2 : List (NodeId × NodeId)) :
    countPair e (l1 ++ l2) = countPair e l1 + countPair e l2 := by
  induction l1 with
  | nil => simp [countPair]
  | cons x xs ih => simp [countPair, ih, Nat.add_assoc]

theorem applySoundOp_ctx (s : SoundboardState) (op : SoundOp)
    (hc : s.ctxCreated = true) : (applySoundOp s op).ctxCreated = true := by
  cases op with
  | play t =>
      simp only [applySoundOp, playAudio]
      split_ifs <;> exact hc
  | stop => exact hc
  | tick t =>
      cases hb : s.audioBuffer with
      | none => simp [applySoundOp, updateProgress, hb, hc]
      | some buf =>
          simp only [applySoundOp, updateProgress, hb]
          split_ifs <;> exact hc
  | load micOk dec =>
      cases dec with
      | none => simp [applySoundOp, loadAudioFile, hc]
      | some buf =>
          by_cases hp : s.isPlaying = true <;>
            simp [applySoundOp, loadAudioFile, stopAudio, hc, hp]
  | setVoice t v =>
      simp only [applySoundOp, setVoiceVolume]
      split_ifs <;> exact hc
  | setBgm t v =>
      simp only [applySoundOp, setBgmVolume]
      split_ifs <;> exact hc
  | setMonitor t b =>
      simp only [applySoundOp, setHearMyVoice]
      split_ifs <;> exact hc

theorem applySoundOp_edges (s : SoundboardState) (op : SoundOp)
    (hc : s.ctxCreated = true) :
    (applySoundOp s op).edges = s.edges ∨
    ∃ n, (applySoundOp s op).edges =
      s.edges ++ [(NodeId.bufferSource n, NodeId.bgmGainNode)] := by
  cases op with
  | play t =>
      simp only [applySoundOp, playAudio]
      split_ifs
      · exact Or.inl rfl
      · exact Or.inr ⟨s.nextSourceId, rfl⟩
  | stop => exact Or.inl rfl
  | tick t =>
      cases hb : s.audioBuffer with
      | none => exact Or.inl (by simp [applySoundOp, updateProgress, hb])
      | some buf =>
          refine Or.inl ?_
          simp only [applySoundOp, updateProgress, hb]
          split_ifs <;> rfl
  | load micOk dec =>
      refine Or.inl ?_
      cases dec with
      | none => simp [applySoundOp, loadAudioFile, hc]
      | some buf =>
          by_cases hp : s.isPlaying = true <;>
            simp [applySoundOp, loadAudioFile, stopAudio, hc, hp]
  | setVoice t v =>
      refine Or.inl ?_
      simp only [applySoundOp, setVoiceVolume]
      split_ifs <;> rfl
  | setBgm t v =>
      refine Or.inl ?_
      simp only [applySoundOp, setBgmVolume]
      split_ifs <;> rfl
  | setMonitor t b =>
      refine Or.inl ?_
      simp only [applySoundOp, setHearMyVoice]
      split_ifs <;> rfl

theorem wiredOnce_applySoundOp (s : SoundboardState) (op : SoundOp)
    (h : WiredOnce s) : WiredOnce (applySoundOp s op) := by
  obtain ⟨hc, h1, h2⟩ := h
  refine ⟨applySoundOp_ctx s op hc, ?_, ?_⟩ <;>
    rcases applySoundOp_edges s op hc with he | ⟨n, he⟩ <;>
      rw [he] <;>
        simp [countPair_append, countPair, h1, h2]

theorem wiredOnce_runSound (ops : List SoundOp) (s : SoundboardState)
    (h : WiredOnce s) : WiredOnce (runSound s ops) := by
  induction ops generalizing s with
  | nil => exact h
  | cons op rest ih => exact ih (applySoundOp s op) (wiredOnce_applySoundOp s op h)

/-- C1: `initAudioContext` wires the BGM gain node to the outbound mixed
destination and to the local playback output exactly once, and that count
stays exactly 1 under every subsequent sequence of soundboard operations;
moreover `playAudio` itself only ever adds a fresh buffer-source → gain
connection (or nothing), never another gain → destination connection. -/
theorem bgm_gain_wired_once (ops : List SoundOp) :
    countPair (NodeId.bgmGainNode, NodeId.mediaStreamDest)
      (runSound (initAudioContext true initialState) ops).edges = 1 ∧
    countPair (NodeId.bgmGainNode, NodeId.contextDest)
      (runSound (initAudioContext true initialState) ops).edges = 1 ∧
    ∀ (t : ℚ) (s : SoundboardState),
      (playAudio t s).1.edges = s.edges ∨
      (playAudio t s).1.edges =
        s.edges ++ [(NodeId.bufferSource s.nextSourceId, NodeId.bgmGainNode)] := by
  have hinit : WiredOnce (initAudioContext true initialState) :=
    ⟨rfl, rfl, rfl⟩
  have h := wiredOnce_runSound ops (initAudioContext true initialState) hinit
  refine ⟨h.2.1, h.2.2, fun t s => ?_⟩
  unfold playAudio
  split_ifs
  · exact Or.inl rfl
  · exact Or.inr rfl

/-- C8: the presence sync handler's per-key flattening equals the full
flattening of the provider's multi-value map filtered to exactly the
well-formed records, whatever the number of values under each key. -/
theorem flattenPresence_wellFormed
    (state : List (String × List PresenceRecord)) :
    flattenPresence state =
      ((state.map Prod.snd).flatten).filter wellFormedRecord := by
  have hwf : wellFormedRecord = truthyNickname := rfl
  induction state with
  | nil => rfl
  | cons kv rest ih =>
      simp only [flattenPresence, List.map_cons, List.flatten_cons,
        List.filter_append, hwf] at ih ⊢
      rw [ih]

/-- C9: `updateCallStatus` is a single-field frame update — the result has
the same number of conversations, every conversation keeps its `id` and
all its other columns, only the `is_call_active` field of rows whose id is
the target changes, and every non-targeted row is exactly unchanged. -/
theorem updateCallStatus_single_field (chatId : String) (b : Bool)
    (db : List Conversation) :
    (applyUpdateCallStatus chatId b db).length = db.length ∧
    List.Forall₂ (fun c c' =>
        c'.id = c.id ∧
        c'.otherColumns = c.otherColumns ∧
        c'.is_call_active = (if c.id = chatId then b else c.is_call_active) ∧
        (c.id ≠ chatId → c' = c))
      db (applyUpdateCallStatus chatId b db) := by
  constructor
  · simp [applyUpdateCallStatus]
  · induction db with
    | nil => exact List.Forall₂.nil
    | cons c rest ih =>
        refine List.Forall₂.cons ?_ ih
        by_cases hid : c.id = chatId <;> simp [hid]

end Siichisei
